import Mathlib

/-!
Shallow embedding of the chunk-dictionary / prefetch-blob builder
(`builder/src/chunkdict_generator.rs`) together with proofs about its
chunk filtering, offset accounting, metadata bookkeeping, index
allocation, placeholder-identifier commit and bounded range reader.

Machine integers (`u32`, `u64`) are modelled as `Nat`: all quantities
involved are sizes and offsets whose arithmetic in the source never
wraps for realistic inputs, and none of the properties proved here
depend on wrap-around behaviour.  Bytes are modelled as `Nat`, files as
`List Nat`.
-/

namespace Chunkdict

/-- Mirror of `ChunkdictChunkInfo`: logical identity of one chunk in some
source blob (`builder/src/chunkdict_generator.rs`). -/
structure ChunkdictChunkInfo where
  image_reference : String
  version : String
  chunk_blob_id : String
  chunk_digest : String
  chunk_compressed_size : Nat
  chunk_uncompressed_size : Nat
  chunk_compressed_offset : Nat
  chunk_uncompressed_offset : Nat
deriving DecidableEq, Repr

/-- Mirror of `ChunkdictBlobInfo`: per-source-blob aggregate metadata. -/
structure ChunkdictBlobInfo where
  blob_id : String
  blob_compressed_size : Nat
  blob_uncompressed_size : Nat
  blob_compressor : String
  blob_meta_ci_compressed_size : Nat
  blob_meta_ci_uncompressed_size : Nat
  blob_meta_ci_offset : Nat
deriving DecidableEq, Repr

/-- Total uncompressed size accumulated for one `chunk_blob_id`, as built by
the `chunk_sizes` hash map in `Generator::validate_and_remove_chunks`. -/
def chunkSizesOf (chunkdict : List ChunkdictChunkInfo) (id : String) : Nat :=
  ((chunkdict.filter (fun c => c.chunk_blob_id = id)).map
    (fun c => c.chunk_uncompressed_size)).sum

/-- The `small_chunks` list of `Generator::validate_and_remove_chunks`: the
distinct source-blob identifiers whose accumulated uncompressed size is
strictly below the block size.  (The source iterates a `HashMap`, so the
order of this list is unspecified there; only its underlying set and the
fact that each identifier occurs once are meaningful.) -/
def smallChunkIds (chunkdict : List ChunkdictChunkInfo) (blockSize : Nat) :
    List String :=
  ((chunkdict.map (fun c => c.chunk_blob_id)).dedup).filter
    (fun id => chunkSizesOf chunkdict id < blockSize)

/-- Mirror of `Generator::validate_and_remove_chunks`: retains only chunks
whose group total reaches the block size.  The second component is the list
of identifiers for which a warning is printed (one `eprintln!` per element
of `small_chunks`). -/
def validate_and_remove_chunks (chunkdict : List ChunkdictChunkInfo)
    (blockSize : Nat) : List ChunkdictChunkInfo × List String :=
  (chunkdict.filter
      (fun c => ¬ c.chunk_blob_id ∈ smallChunkIds chunkdict blockSize),
    smallChunkIds chunkdict blockSize)

theorem mem_smallChunkIds (chunkdict : List ChunkdictChunkInfo)
    (blockSize : Nat) (id : String) :
    id ∈ smallChunkIds chunkdict blockSize ↔
      (∃ c ∈ chunkdict, c.chunk_blob_id = id) ∧
        chunkSizesOf chunkdict id < blockSize := by
  simp [smallChunkIds, List.mem_filter, List.mem_dedup, List.mem_map]

theorem smallChunkIds_nodup (chunkdict : List ChunkdictChunkInfo)
    (blockSize : Nat) : (smallChunkIds chunkdict blockSize).Nodup :=
  (List.nodup_dedup _).filter _

/-- C1: after `validate_and_remove_chunks`, a chunk appears in the output iff
the sum of `chunk_uncompressed_size` over all input chunks sharing its
source-blob identifier is at least the minimum block size; an identifier is
warned about iff it occurs in the input and its group total is strictly
below the minimum, and the warning list mentions each identifier at most
once (one warning per dropped group). -/
theorem C1_validate_and_filter (chunkdict : List ChunkdictChunkInfo)
    (blockSize : Nat) :
    (∀ c, c ∈ (validate_and_remove_chunks chunkdict blockSize).1 ↔
        c ∈ chunkdict ∧ blockSize ≤ chunkSizesOf chunkdict c.chunk_blob_id) ∧
    (∀ id, id ∈ (validate_and_remove_chunks chunkdict blockSize).2 ↔
        (∃ c ∈ chunkdict, c.chunk_blob_id = id) ∧
          chunkSizesOf chunkdict id < blockSize) ∧
    (validate_and_remove_chunks chunkdict blockSize).2.Nodup := by
  refine ⟨?_, ?_, smallChunkIds_nodup chunkdict blockSize⟩
  · intro c
    simp only [validate_and_remove_chunks, List.mem_filter, decide_not,
      Bool.not_eq_true', decide_eq_false_iff_not, mem_smallChunkIds]
    constructor
    · rintro ⟨hc, hsmall⟩
      refine ⟨hc, ?_⟩
      by_contra hlt
      exact hsmall ⟨⟨c, hc, rfl⟩, Nat.lt_of_not_le hlt⟩
    · rintro ⟨hc, hge⟩
      exact ⟨hc, fun h => Nat.not_le_of_lt h.2 hge⟩
  · intro id
    exact mem_smallChunkIds chunkdict blockSize id

/-- Concrete instance of the C1 scenario from the spec: chunks of sizes
2048, 2048, 512 for blob `A` and a single chunk of size 1000 for blob `B`. -/
def c1Chunk (id : String) (u : Nat) : ChunkdictChunkInfo :=
  { image_reference := "img", version := "v1", chunk_blob_id := id,
    chunk_digest := "d", chunk_compressed_size := u,
    chunk_uncompressed_size := u, chunk_compressed_offset := 0,
    chunk_uncompressed_offset := 0 }

theorem C1_witness :
    (c1Chunk "B" 1000 ∈
        (validate_and_remove_chunks
          [c1Chunk "A" 2048, c1Chunk "A" 2048, c1Chunk "A" 512,
            c1Chunk "B" 1000] 4096).1 ↔
      c1Chunk "B" 1000 ∈
          [c1Chunk "A" 2048, c1Chunk "A" 2048, c1Chunk "A" 512,
            c1Chunk "B" 1000] ∧
        4096 ≤ chunkSizesOf
          [c1Chunk "A" 2048, c1Chunk "A" 2048, c1Chunk "A" 512,
            c1Chunk "B" 1000] (c1Chunk "B" 1000).chunk_blob_id) :=
  (C1_validate_and_filter
    [c1Chunk "A" 2048, c1Chunk "A" 2048, c1Chunk "A" 512, c1Chunk "B" 1000]
    4096).1 (c1Chunk "B" 1000)

/-- Mirror of `Generator::align_to_4k` instantiated at `u64`/`Nat`: round
`offset` up to the next multiple of 4096. -/
def align_to_4k (offset : Nat) : Nat :=
  let alignment := 4096
  let remainder := offset % alignment
  if remainder = 0 then offset else offset + (alignment - remainder)

/-- Modelled from the spec: `nydus_utils::try_round_up_4k` (the crate is not
under `src/`) rounds a size up to the next 4 KiB boundary; the spec's
Alignment Utility "round an offset up to the next 4 KiB boundary".  Overflow
(`None` in the source) cannot occur over `Nat`. -/
def try_round_up_4k (v : Nat) : Nat :=
  if v % 4096 = 0 then v else v + (4096 - v % 4096)

/-- Modelled from the spec: the fixed size of one on-disk chunk-metadata
record (`size_of::<BlobChunkInfoV1Ondisk>()`, a `nydus_storage` type not
under `src/`; two `u64` words). -/
def sizeOfBlobChunkInfoV1Ondisk : Nat := 16

/-- One chunk's mutable metadata (`ChunkWrapper` fields touched by the
prefetch loop in `Generator::generate_prefetch`). -/
structure Chunk where
  blob_index : Nat
  index : Nat
  compressed_offset : Nat
  compressed_size : Nat
  uncompressed_offset : Nat
  uncompressed_size : Nat
deriving DecidableEq, Repr

/-- The mutable state threaded through the chunk loop of
`Generator::generate_prefetch`: the local counters (`chunk_count`,
`prefetch_blob_offset`, `meta_uncompressed_size`, `chunk_index_in_prefetch`),
the fields of `prefetch_blob_ctx` the loop mutates, the two
`meta_ci_*_size` fields of `prefetch_blob_info`, the bytes of the
`Prefetch-blob` file, and the rewritten chunks in loop order. -/
structure PrefetchState where
  chunk_count : Nat
  prefetch_blob_offset : Nat
  meta_uncompressed_size : Nat
  chunk_index_in_prefetch : Nat
  current_compressed_offset : Nat
  compressed_blob_size : Nat
  uncompressed_blob_size : Nat
  meta_ci_uncompressed_size : Nat
  meta_ci_compressed_size : Nat
  blob_file : List Nat
  chunks_out : List Chunk
deriving DecidableEq, Repr

/-- Initial state: fresh counters, freshly created (empty) blob file.
`BlobInfo::new` is called with zero sizes and `BlobContext::from` starts its
offsets from them, so every numeric field starts at 0. -/
def initPrefetchState : PrefetchState :=
  { chunk_count := 0, prefetch_blob_offset := 0, meta_uncompressed_size := 0,
    chunk_index_in_prefetch := 0, current_compressed_offset := 0,
    compressed_blob_size := 0, uncompressed_blob_size := 0,
    meta_ci_uncompressed_size := 0, meta_ci_compressed_size := 0,
    blob_file := [], chunks_out := [] }

/-- One iteration of the chunk loop of `Generator::generate_prefetch`.
`input.1` is the content of the source blob file the chunk is read from,
`input.2` the chunk.  The loop body: read `compressed_size` bytes at
`compressed_offset` through a `BlobNodeReader`, append them at the end of
the prefetch blob file, rewrite the chunk's blob index / chunk index /
offsets, advance the counters, and round `prefetch_blob_offset` up to 4 KiB. -/
def prefetchStep (pbIndex : Nat) (st : PrefetchState)
    (input : List Nat × Chunk) : PrefetchState :=
  let srcFile := input.1
  let c := input.2
  let buf := (srcFile.drop c.compressed_offset).take c.compressed_size
  let newChunk : Chunk :=
    { c with
      blob_index := pbIndex,
      index := st.chunk_index_in_prefetch,
      compressed_offset := st.prefetch_blob_offset,
      uncompressed_offset := st.prefetch_blob_offset }
  { chunk_count := st.chunk_count + 1,
    prefetch_blob_offset :=
      align_to_4k (st.prefetch_blob_offset + c.uncompressed_size),
    meta_uncompressed_size := st.meta_uncompressed_size + c.uncompressed_size,
    chunk_index_in_prefetch := st.chunk_index_in_prefetch + 1,
    current_compressed_offset :=
      st.current_compressed_offset + c.compressed_size,
    compressed_blob_size := st.compressed_blob_size + c.compressed_size,
    uncompressed_blob_size :=
      st.uncompressed_blob_size + try_round_up_4k c.uncompressed_size,
    meta_ci_uncompressed_size :=
      st.meta_ci_uncompressed_size + sizeOfBlobChunkInfoV1Ondisk,
    meta_ci_compressed_size :=
      st.meta_ci_compressed_size + sizeOfBlobChunkInfoV1Ondisk,
    blob_file := st.blob_file ++ buf,
    chunks_out := st.chunks_out ++ [newChunk] }

/-- The whole chunk loop of `Generator::generate_prefetch`, over the
flattened sequence of (source file, chunk) pairs in node order. -/
def runPrefetch (pbIndex : Nat) (inputs : List (List Nat × Chunk)) :
    PrefetchState :=
  inputs.foldl (prefetchStep pbIndex) initPrefetchState

/-- The header fields of `prefetch_blob_info` fixed right after the loop
(lines `set_meta_ci_offset` .. `set_uncompressed_size` of
`Generator::generate_prefetch`). -/
structure PrefetchBlobHeader where
  meta_ci_offset : Nat
  meta_ci_uncompressed_size : Nat
  meta_ci_compressed_size : Nat
  chunk_count : Nat
  compressed_size : Nat
  uncompressed_size : Nat
deriving DecidableEq, Repr

/-- Mirror of the sealing assignments: `meta_ci_offset := 0x200 +
meta_uncompressed_size`, `chunk_count := chunk_count`, `compressed_size :=
prefetch_blob_offset`, `uncompressed_size := prefetch_blob_offset`. -/
def sealPrefetchBlob (st : PrefetchState) : PrefetchBlobHeader :=
  { meta_ci_offset := 0x200 + st.meta_uncompressed_size,
    meta_ci_uncompressed_size := st.meta_ci_uncompressed_size,
    meta_ci_compressed_size := st.meta_ci_compressed_size,
    chunk_count := st.chunk_count,
    compressed_size := st.prefetch_blob_offset,
    uncompressed_size := st.prefetch_blob_offset }

theorem align_to_4k_mod (n : Nat) : align_to_4k n % 4096 = 0 := by
  show (if n % 4096 = 0 then n else n + (4096 - n % 4096)) % 4096 = 0
  split <;> omega

@[simp] theorem prefetchStep_chunk_count (pbIndex : Nat) (st : PrefetchState)
    (p : List Nat × Chunk) :
    (prefetchStep pbIndex st p).chunk_count = st.chunk_count + 1 := rfl

@[simp] theorem prefetchStep_chunk_index (pbIndex : Nat) (st : PrefetchState)
    (p : List Nat × Chunk) :
    (prefetchStep pbIndex st p).chunk_index_in_prefetch
      = st.chunk_index_in_prefetch + 1 := rfl

@[simp] theorem prefetchStep_meta_uncompressed_size (pbIndex : Nat)
    (st : PrefetchState) (p : List Nat × Chunk) :
    (prefetchStep pbIndex st p).meta_uncompressed_size
      = st.meta_uncompressed_size + p.2.uncompressed_size := rfl

@[simp] theorem prefetchStep_current_compressed_offset (pbIndex : Nat)
    (st : PrefetchState) (p : List Nat × Chunk) :
    (prefetchStep pbIndex st p).current_compressed_offset
      = st.current_compressed_offset + p.2.compressed_size := rfl

@[simp] theorem prefetchStep_compressed_blob_size (pbIndex : Nat)
    (st : PrefetchState) (p : List Nat × Chunk) :
    (prefetchStep pbIndex st p).compressed_blob_size
      = st.compressed_blob_size + p.2.compressed_size := rfl

@[simp] theorem prefetchStep_meta_ci_uncompressed_size (pbIndex : Nat)
    (st : PrefetchState) (p : List Nat × Chunk) :
    (prefetchStep pbIndex st p).meta_ci_uncompressed_size
      = st.meta_ci_uncompressed_size + sizeOfBlobChunkInfoV1Ondisk := rfl

@[simp] theorem prefetchStep_meta_ci_compressed_size (pbIndex : Nat)
    (st : PrefetchState) (p : List Nat × Chunk) :
    (prefetchStep pbIndex st p).meta_ci_compressed_size
      = st.meta_ci_compressed_size + sizeOfBlobChunkInfoV1Ondisk := rfl

@[simp] theorem prefetchStep_prefetch_blob_offset (pbIndex : Nat)
    (st : PrefetchState) (p : List Nat × Chunk) :
    (prefetchStep pbIndex st p).prefetch_blob_offset
      = align_to_4k (st.prefetch_blob_offset + p.2.uncompressed_size) := rfl

@[simp] theorem prefetchStep_blob_file (pbIndex : Nat) (st : PrefetchState)
    (p : List Nat × Chunk) :
    (prefetchStep pbIndex st p).blob_file
      = st.blob_file ++ (p.1.drop p.2.compressed_offset).take
          p.2.compressed_size := rfl

@[simp] theorem prefetchStep_chunks_out (pbIndex : Nat) (st : PrefetchState)
    (p : List Nat × Chunk) :
    (prefetchStep pbIndex st p).chunks_out
      = st.chunks_out ++
          [{ p.2 with
              blob_index := pbIndex,
              index := st.chunk_index_in_prefetch,
              compressed_offset := st.prefetch_blob_offset,
              uncompressed_offset := st.prefetch_blob_offset }] := rfl

/-- Characterization of the scalar counters after folding the prefetch loop
body over any list of inputs, from any starting state. -/
theorem foldPrefetch_counts (pbIndex : Nat)
    (inputs : List (List Nat × Chunk)) (st : PrefetchState) :
    (inputs.foldl (prefetchStep pbIndex) st).chunk_count
        = st.chunk_count + inputs.length ∧
    (inputs.foldl (prefetchStep pbIndex) st).chunk_index_in_prefetch
        = st.chunk_index_in_prefetch + inputs.length ∧
    (inputs.foldl (prefetchStep pbIndex) st).meta_uncompressed_size
        = st.meta_uncompressed_size
            + (inputs.map (fun p => p.2.uncompressed_size)).sum ∧
    (inputs.foldl (prefetchStep pbIndex) st).current_compressed_offset
        = st.current_compressed_offset
            + (inputs.map (fun p => p.2.compressed_size)).sum ∧
    (inputs.foldl (prefetchStep pbIndex) st).compressed_blob_size
        = st.compressed_blob_size
            + (inputs.map (fun p => p.2.compressed_size)).sum ∧
    (inputs.foldl (prefetchStep pbIndex) st).meta_ci_uncompressed_size
        = st.meta_ci_uncompressed_size
            + inputs.length * sizeOfBlobChunkInfoV1Ondisk ∧
    (inputs.foldl (prefetchStep pbIndex) st).meta_ci_compressed_size
        = st.meta_ci_compressed_size
            + inputs.length * sizeOfBlobChunkInfoV1Ondisk := by
  induction inputs generalizing st with
  | nil => simp
  | cons p rest ih =>
    have h := ih (prefetchStep pbIndex st p)
    simp only [prefetchStep_chunk_count, prefetchStep_chunk_index,
      prefetchStep_meta_uncompressed_size,
      prefetchStep_current_compressed_offset,
      prefetchStep_compressed_blob_size,
      prefetchStep_meta_ci_uncompressed_size,
      prefetchStep_meta_ci_compressed_size] at h
    simp only [List.foldl_cons, List.map_cons, List.sum_cons,
      List.length_cons]
    simp only [sizeOfBlobChunkInfoV1Ondisk] at h ⊢
    omega

/-- The 4 KiB invariant is preserved by the prefetch loop: if the running
uncompressed write position is 4 KiB-aligned and all chunks emitted so far
have 4 KiB-aligned uncompressed offsets, the same holds after folding any
further inputs. -/
theorem foldPrefetch_aligned (pbIndex : Nat)
    (inputs : List (List Nat × Chunk)) (st : PrefetchState)
    (hoff : st.prefetch_blob_offset % 4096 = 0)
    (hchunks : ∀ c ∈ st.chunks_out, c.uncompressed_offset % 4096 = 0) :
    (inputs.foldl (prefetchStep pbIndex) st).prefetch_blob_offset % 4096 = 0 ∧
    ∀ c ∈ (inputs.foldl (prefetchStep pbIndex) st).chunks_out,
      c.uncompressed_offset % 4096 = 0 := by
  induction inputs generalizing st with
  | nil => exact ⟨hoff, hchunks⟩
  | cons p rest ih =>
    refine ih (prefetchStep pbIndex st p) (align_to_4k_mod _) ?_
    intro c hc
    simp only [prefetchStep, List.mem_append, List.mem_singleton] at hc
    rcases hc with hc | hc
    · exact hchunks c hc
    · subst hc
      exact hoff

/-- Chunk with a given uncompressed size, used for the concrete C3 scenario. -/
def c3Chunk (u : Nat) : Chunk :=
  { blob_index := 0, index := 0, compressed_offset := 0,
    compressed_size := 0, uncompressed_offset := 0, uncompressed_size := u }

/-- C3: every chunk repacked by the prefetch loop is assigned a 4 KiB-aligned
uncompressed offset (the running write position is rounded up to the next
4 KiB boundary after each chunk), and repacking two chunks of uncompressed
sizes 100 and 5000 assigns uncompressed offsets 0 and 4096. -/
theorem C3_uncompressed_offsets_aligned :
    (∀ pbIndex inputs, ∀ c ∈ (runPrefetch pbIndex inputs).chunks_out,
        c.uncompressed_offset % 4096 = 0) ∧
    ((runPrefetch 1 [([], c3Chunk 100), ([], c3Chunk 5000)]).chunks_out.map
        (fun c => c.uncompressed_offset)) = [0, 4096] := by
  constructor
  · intro pbIndex inputs
    exact (foldPrefetch_aligned pbIndex inputs initPrefetchState rfl
      (by intro c hc; simp [initPrefetchState] at hc)).2
  · decide

theorem C3_witness :
    ({ blob_index := 1, index := 0, compressed_offset := 0,
        compressed_size := 0, uncompressed_offset := 0,
        uncompressed_size := 100 } : Chunk).uncompressed_offset % 4096 = 0 :=
  C3_uncompressed_offsets_aligned.1 1 [([], c3Chunk 100), ([], c3Chunk 5000)]
    { blob_index := 1, index := 0, compressed_offset := 0,
      compressed_size := 0, uncompressed_offset := 0,
      uncompressed_size := 100 } (by decide)

/-- Per-target-blob mutable context: the fields of `BlobContext` touched by
`Generator::insert_chunks`.  `chunk_count` doubles as the next chunk index;
`alloc_chunk_index` is modelled from the spec (the `BlobContext` type is not
under `src/`): "allocates the next chunk index (simple post-increment
counter, starts at 0)". -/
structure DictBlobCtx where
  chunk_count : Nat
  current_uncompressed_offset : Nat
  uncompressed_blob_size : Nat
  ci_uncompressed_size : Nat
  ci_compressed_size : Nat
  ci_compressed_offset : Nat
  blob_compressor : String
deriving DecidableEq, Repr

/-- Fresh context created by `get_or_cerate_blob_for_chunkdict` (modelled
from the spec: a fresh accumulator starts from zero offsets). -/
def initDictBlobCtx : DictBlobCtx :=
  { chunk_count := 0, current_uncompressed_offset := 0,
    uncompressed_blob_size := 0, ci_uncompressed_size := 0,
    ci_compressed_size := 0, ci_compressed_offset := 0,
    blob_compressor := "" }

/-- The chunk record pushed onto `node.chunks` by `Generator::insert_chunks`
(`ChunkWrapper` fields that the source sets).  The target blob is identified
here by its source-blob identifier, which is in bijection with the
`blob_index` returned by `get_or_cerate_blob_for_chunkdict`. -/
structure DictChunk where
  blob_id : String
  index : Nat
  file_offset : Nat
  compressed_size : Nat
  compressed_offset : Nat
  uncompressed_size : Nat
  uncompressed_offset : Nat
  chunk_digest : String
deriving DecidableEq, Repr

/-- State of `Generator::insert_chunks`: the per-blob contexts held by the
blob manager (a map keyed by source-blob identifier, with contexts created
lazily — absent keys behave as fresh contexts) and the node's chunk list. -/
structure InsertState where
  ctxs : String → DictBlobCtx
  chunks : List DictChunk

/-- Initial state of `Generator::insert_chunks`: no chunks, all contexts
fresh. -/
def initInsertState : InsertState :=
  { ctxs := fun _ => initDictBlobCtx, chunks := [] }

/-- The per-blob context after one chunk insertion, given the matching blob
descriptor `bd` and the context `ctx0` the blob had before.  Mirrors, in
source order: the uncompressed-offset advance; the two `ci_*_size`
increments (the source reads the freshly updated uncompressed size when
writing the compressed one); the overwrite of compressor and the three
`ci_*` header fields with the descriptor's stored values; the chunk-index
post-increment of `alloc_chunk_index`. -/
def dictCtxAfter (bd : ChunkdictBlobInfo) (ctx0 : DictBlobCtx)
    (ci : ChunkdictChunkInfo) : DictBlobCtx :=
  let ctx1 := { ctx0 with
    uncompressed_blob_size :=
      ctx0.current_uncompressed_offset + ci.chunk_uncompressed_size,
    current_uncompressed_offset :=
      ctx0.current_uncompressed_offset + ci.chunk_uncompressed_size }
  let ctx2 := { ctx1 with
    ci_uncompressed_size :=
      ctx1.ci_uncompressed_size + sizeOfBlobChunkInfoV1Ondisk }
  let ctx3 := { ctx2 with
    ci_compressed_size :=
      ctx2.ci_uncompressed_size + sizeOfBlobChunkInfoV1Ondisk }
  let ctx4 := { ctx3 with
    blob_compressor := bd.blob_compressor,
    ci_uncompressed_size := bd.blob_meta_ci_uncompressed_size,
    ci_compressed_size := bd.blob_meta_ci_compressed_size,
    ci_compressed_offset := bd.blob_meta_ci_offset }
  { ctx4 with chunk_count := ctx4.chunk_count + 1 }

/-- The `ChunkWrapper` pushed for the chunk at input position `index`:
offsets and sizes come from the descriptor itself, the within-blob index
from the blob's counter, `file_offset` is `index * chunk_compressed_size`. -/
def newDictChunk (st : InsertState) (index : Nat)
    (ci : ChunkdictChunkInfo) : DictChunk :=
  { blob_id := ci.chunk_blob_id,
    index := (st.ctxs ci.chunk_blob_id).chunk_count,
    file_offset := index * ci.chunk_compressed_size,
    compressed_size := ci.chunk_compressed_size,
    compressed_offset := ci.chunk_compressed_offset,
    uncompressed_size := ci.chunk_uncompressed_size,
    uncompressed_offset := ci.chunk_uncompressed_offset,
    chunk_digest := ci.chunk_digest }

/-- One iteration of the loop in `Generator::insert_chunks`, for the chunk at
position `index` of the input.  Returns `none` when the chunk's source-blob
identifier has no matching `ChunkdictBlobInfo` (the `find(..).unwrap()`
panic; the mutations preceding the panic are unobservable because the panic
aborts the whole pass).  `Algorithm::from_str` on the descriptor's
compressor is modelled from the spec as total: compression codecs are
treated as black boxes and the spec's error taxonomy has no parse failure. -/
def insertStep (blobs : List ChunkdictBlobInfo) (index : Nat)
    (st : InsertState) (ci : ChunkdictChunkInfo) : Option InsertState :=
  match blobs.find? (fun b => b.blob_id = ci.chunk_blob_id) with
  | none => none
  | some bd =>
    some { ctxs := fun b =>
            if b = ci.chunk_blob_id then
              dictCtxAfter bd (st.ctxs ci.chunk_blob_id) ci
            else st.ctxs b,
           chunks := st.chunks ++ [newDictChunk st index ci] }

@[simp] theorem dictCtxAfter_chunk_count (bd : ChunkdictBlobInfo)
    (ctx0 : DictBlobCtx) (ci : ChunkdictChunkInfo) :
    (dictCtxAfter bd ctx0 ci).chunk_count = ctx0.chunk_count + 1 := rfl

@[simp] theorem dictCtxAfter_ci_uncompressed_size (bd : ChunkdictBlobInfo)
    (ctx0 : DictBlobCtx) (ci : ChunkdictChunkInfo) :
    (dictCtxAfter bd ctx0 ci).ci_uncompressed_size
      = bd.blob_meta_ci_uncompressed_size := rfl

@[simp] theorem dictCtxAfter_ci_compressed_size (bd : ChunkdictBlobInfo)
    (ctx0 : DictBlobCtx) (ci : ChunkdictChunkInfo) :
    (dictCtxAfter bd ctx0 ci).ci_compressed_size
      = bd.blob_meta_ci_compressed_size := rfl

@[simp] theorem newDictChunk_blob_id (st : InsertState) (index : Nat)
    (ci : ChunkdictChunkInfo) :
    (newDictChunk st index ci).blob_id = ci.chunk_blob_id := rfl

@[simp] theorem newDictChunk_index (st : InsertState) (index : Nat)
    (ci : ChunkdictChunkInfo) :
    (newDictChunk st index ci).index
      = (st.ctxs ci.chunk_blob_id).chunk_count := rfl

/-- The enumerated loop of `Generator::insert_chunks`. -/
def insertChunksAux (blobs : List ChunkdictBlobInfo) :
    Nat → InsertState → List ChunkdictChunkInfo → Option InsertState
  | _, st, [] => some st
  | index, st, ci :: rest =>
    match insertStep blobs index st ci with
    | none => none
    | some st' => insertChunksAux blobs (index + 1) st' rest

/-- Mirror of `Generator::insert_chunks` (state-relevant part): `none` is the
fatal abort, `some` the final blob-manager contexts and node chunk list. -/
def insert_chunks (chunkdict_chunks : List ChunkdictChunkInfo)
    (chunkdict_blobs : List ChunkdictBlobInfo) : Option InsertState :=
  insertChunksAux chunkdict_blobs 0 initInsertState chunkdict_chunks

theorem insertChunksAux_isSome (blobs : List ChunkdictBlobInfo)
    (chunks : List ChunkdictChunkInfo) :
    ∀ (index : Nat) (st : InsertState),
      (insertChunksAux blobs index st chunks).isSome = true ↔
        ∀ ci ∈ chunks, ∃ bd ∈ blobs, bd.blob_id = ci.chunk_blob_id := by
  induction chunks with
  | nil => simp [insertChunksAux]
  | cons ci rest ih =>
    intro index st
    rcases hf : blobs.find? (fun b => b.blob_id = ci.chunk_blob_id)
      with _ | bd
    · simp only [insertChunksAux, insertStep, hf]
      constructor
      · intro h
        cases h
      · intro h
        rcases h ci (List.mem_cons_self ci rest) with ⟨bd, hbd, hid⟩
        have hnone := List.find?_eq_none.mp hf bd hbd
        simp [hid] at hnone
    · have hmem := List.mem_of_find?_eq_some hf
      have hpred := List.find?_some hf
      simp only [decide_eq_true_eq] at hpred
      simp only [insertChunksAux, insertStep, hf]
      rw [ih (index + 1) _]
      constructor
      · intro h ci' hci'
        rcases List.mem_cons.mp hci' with hci' | hci'
        · exact hci' ▸ ⟨bd, hmem, hpred⟩
        · exact h ci' hci'
      · intro h ci' hci'
        exact h ci' (List.mem_cons_of_mem ci hci')

/-- C9: `insert_chunks` succeeds exactly when every chunk's source-blob
identifier has a matching blob descriptor; a single chunk referencing an
unknown identifier makes the whole insertion abort fatally. -/
theorem C9_insert_config_error (chunks : List ChunkdictChunkInfo)
    (blobs : List ChunkdictBlobInfo) :
    (insert_chunks chunks blobs).isSome = true ↔
      ∀ ci ∈ chunks, ∃ bd ∈ blobs, bd.blob_id = ci.chunk_blob_id :=
  insertChunksAux_isSome blobs chunks 0 initInsertState

/-- Concrete chunk/blob pair for C9's witness: identifiers match. -/
def c9Chunk : ChunkdictChunkInfo := c1Chunk "blob-a" 7

def c9Blob (id : String) : ChunkdictBlobInfo :=
  { blob_id := id, blob_compressed_size := 7, blob_uncompressed_size := 7,
    blob_compressor := "zstd", blob_meta_ci_compressed_size := 16,
    blob_meta_ci_uncompressed_size := 16, blob_meta_ci_offset := 512 }

theorem C9_witness :
    (insert_chunks [c9Chunk] [c9Blob "blob-a"]).isSome = true :=
  (C9_insert_config_error [c9Chunk] [c9Blob "blob-a"]).mpr (by decide)

/-- The chunk indices handed out by the prefetch loop continue the running
`chunk_index_in_prefetch` counter. -/
theorem foldPrefetch_indices (pbIndex : Nat)
    (inputs : List (List Nat × Chunk)) (st : PrefetchState) :
    ((inputs.foldl (prefetchStep pbIndex) st).chunks_out.map
        (fun c => c.index))
      = st.chunks_out.map (fun c => c.index)
          ++ List.range' st.chunk_index_in_prefetch inputs.length := by
  induction inputs generalizing st with
  | nil => simp
  | cons p rest ih =>
    rw [List.foldl_cons, ih (prefetchStep pbIndex st p)]
    simp only [prefetchStep_chunks_out, prefetchStep_chunk_index,
      List.map_append, List.map_cons, List.map_nil, List.length_cons]
    rw [List.range'_succ]
    simp

/-- Invariant of the chunk-dictionary insertion: for every target blob the
indices handed out so far are exactly `0, 1, ...` up to that blob's chunk
counter. -/
def dictIndicesInv (st : InsertState) : Prop :=
  ∀ id, ((st.chunks.filter (fun c => c.blob_id = id)).map (fun c => c.index))
      = List.range ((st.ctxs id).chunk_count)

theorem insertStep_indicesInv (blobs : List ChunkdictBlobInfo) (index : Nat)
    (st : InsertState) (ci : ChunkdictChunkInfo) (st' : InsertState)
    (h : insertStep blobs index st ci = some st')
    (hinv : dictIndicesInv st) : dictIndicesInv st' := by
  rcases hf : blobs.find? (fun b => b.blob_id = ci.chunk_blob_id) with _ | bd
  · simp only [insertStep, hf] at h
    exact Option.noConfusion h
  · simp only [insertStep, hf, Option.some.injEq] at h
    subst h
    intro id
    dsimp only
    by_cases hid : id = ci.chunk_blob_id
    · subst hid
      rw [List.filter_append, List.map_append, if_pos rfl]
      have hsingle : List.filter (fun c => decide (c.blob_id = ci.chunk_blob_id))
          [newDictChunk st index ci] = [newDictChunk st index ci] := by
        simp
      rw [hsingle, hinv ci.chunk_blob_id, dictCtxAfter_chunk_count,
        List.range_succ]
      simp
    · rw [List.filter_append, if_neg hid]
      have hsingle : List.filter (fun c => decide (c.blob_id = id))
          [newDictChunk st index ci] = [] := by
        simp only [List.filter_eq_nil_iff]
        intro c hc
        rw [List.mem_singleton] at hc
        subst hc
        simp only [newDictChunk_blob_id, decide_eq_true_eq]
        exact fun hx => hid hx.symm
      rw [hsingle, List.append_nil]
      exact hinv id

theorem insertChunksAux_indicesInv (blobs : List ChunkdictBlobInfo)
    (chunks : List ChunkdictChunkInfo) :
    ∀ (index : Nat) (st st' : InsertState),
      insertChunksAux blobs index st chunks = some st' →
      dictIndicesInv st → dictIndicesInv st' := by
  induction chunks with
  | nil =>
    intro _ st st' h hinv
    simp only [insertChunksAux, Option.some.injEq] at h
    exact h ▸ hinv
  | cons ci rest ih =>
    intro index st st' h hinv
    rcases hs : insertStep blobs index st ci with _ | st1
    · simp only [insertChunksAux, hs] at h
      exact Option.noConfusion h
    · simp only [insertChunksAux, hs] at h
      exact ih (index + 1) st1 st' h
        (insertStep_indicesInv blobs index st ci st1 hs hinv)

/-- C7: for every target blob, of either builder, the within-blob chunk
indices are the dense sequence `0, 1, ..., N-1` in insertion order: the
prefetch loop assigns `List.range` of the number of repacked chunks, and for
each source-blob identifier the chunk-dictionary builder's chunks carry
`List.range` of that blob's chunk count. -/
theorem C7_chunk_indices_dense :
    (∀ pbIndex inputs,
        ((runPrefetch pbIndex inputs).chunks_out.map (fun c => c.index))
          = List.range inputs.length) ∧
    (∀ chunks blobs st, insert_chunks chunks blobs = some st →
        ∀ id, ((st.chunks.filter (fun c => c.blob_id = id)).map
            (fun c => c.index))
          = List.range
              ((st.chunks.filter (fun c => c.blob_id = id)).length)) := by
  constructor
  · intro pbIndex inputs
    have h := foldPrefetch_indices pbIndex inputs initPrefetchState
    simpa [runPrefetch, initPrefetchState, List.range_eq_range'] using h
  · intro chunks blobs st h id
    have hinit : dictIndicesInv initInsertState := by
      intro id
      simp [initInsertState, initDictBlobCtx]
    have hinv := insertChunksAux_indicesInv blobs chunks 0 initInsertState
      st h hinit
    have hlen := congrArg List.length (hinv id)
    simp only [List.length_map, List.length_range] at hlen
    rw [hinv id, hlen]

/-- Concrete inputs for C7's witness: three chunks over two blobs. -/
def c7Chunks : List ChunkdictChunkInfo :=
  [c1Chunk "blob-a" 5, c1Chunk "blob-b" 6, c1Chunk "blob-a" 7]

def c7Blobs : List ChunkdictBlobInfo := [c9Blob "blob-a", c9Blob "blob-b"]

theorem C7_witness :
    ((insert_chunks c7Chunks c7Blobs).map (fun st =>
        (st.chunks.filter (fun c => c.blob_id = "blob-a")).map
          (fun c => c.index)))
      = some (List.range 2) := by
  rcases h : insert_chunks c7Chunks c7Blobs with _ | st
  · have hsome : (insert_chunks c7Chunks c7Blobs).isSome = true := by decide
    rw [h] at hsome
    simp at hsome
  · have hlen : ((insert_chunks c7Chunks c7Blobs).map (fun st =>
        (st.chunks.filter (fun c => c.blob_id = "blob-a")).length))
          = some 2 := by decide
    rw [h] at hlen
    simp only [Option.map_some', Option.some.injEq] at hlen
    have hmain := C7_chunk_indices_dense.2 c7Chunks c7Blobs st h "blob-a"
    simp only [Option.map_some', Option.some.injEq]
    rw [hmain, hlen]

/-- Once a blob's `ci_*_size` header fields hold its descriptor's stored
values, further insertions keep them there: any later chunk of the same blob
overwrites them with the same descriptor values (the `find` is
deterministic), and chunks of other blobs leave the context untouched. -/
theorem insertChunksAux_ci_sizes_persist (blobs : List ChunkdictBlobInfo)
    (chunks : List ChunkdictChunkInfo) (id : String)
    (bd : ChunkdictBlobInfo)
    (hfind : blobs.find? (fun b => b.blob_id = id) = some bd) :
    ∀ (index : Nat) (st st' : InsertState),
      insertChunksAux blobs index st chunks = some st' →
      (st.ctxs id).ci_uncompressed_size = bd.blob_meta_ci_uncompressed_size →
      (st.ctxs id).ci_compressed_size = bd.blob_meta_ci_compressed_size →
      (st'.ctxs id).ci_uncompressed_size
          = bd.blob_meta_ci_uncompressed_size ∧
        (st'.ctxs id).ci_compressed_size
          = bd.blob_meta_ci_compressed_size := by
  induction chunks with
  | nil =>
    intro _ st st' h h1 h2
    simp only [insertChunksAux, Option.some.injEq] at h
    subst h
    exact ⟨h1, h2⟩
  | cons ci rest ih =>
    intro index st st' h h1 h2
    rcases hs : insertStep blobs index st ci with _ | st1
    · simp only [insertChunksAux, hs] at h
      exact Option.noConfusion h
    · simp only [insertChunksAux, hs] at h
      rcases hf : blobs.find? (fun b => b.blob_id = ci.chunk_blob_id)
        with _ | bd'
      · simp only [insertStep, hf] at hs
        exact Option.noConfusion hs
      · simp only [insertStep, hf, Option.some.injEq] at hs
        subst hs
        by_cases hid : id = ci.chunk_blob_id
        · have hbd : bd' = bd := by
            rw [← hid] at hf
            rw [hf] at hfind
            exact (Option.some.injEq _ _ ▸ hfind)
          subst hbd
          refine ih (index + 1) _ st' h ?_ ?_
          · rw [hid]
            simp
          · rw [hid]
            simp
        · refine ih (index + 1) _ st' h ?_ ?_
          · simpa [hid] using h1
          · simpa [hid] using h2

/-- After a successful `insert_chunks` run, every inserted chunk's blob
carries, in its `ci_*_size` header fields, the stored values of its
matching blob descriptor. -/
theorem insertChunksAux_ci_sizes (blobs : List ChunkdictBlobInfo)
    (chunks : List ChunkdictChunkInfo) :
    ∀ (index : Nat) (st st' : InsertState),
      insertChunksAux blobs index st chunks = some st' →
      ∀ ci ∈ chunks, ∀ bd,
        blobs.find? (fun b => b.blob_id = ci.chunk_blob_id) = some bd →
        (st'.ctxs ci.chunk_blob_id).ci_uncompressed_size
            = bd.blob_meta_ci_uncompressed_size ∧
          (st'.ctxs ci.chunk_blob_id).ci_compressed_size
            = bd.blob_meta_ci_compressed_size := by
  induction chunks with
  | nil =>
    intro _ _ _ _ ci hci
    cases hci
  | cons ci0 rest ih =>
    intro index st st' h ci hci bd hfind
    rcases hs : insertStep blobs index st ci0 with _ | st1
    · simp only [insertChunksAux, hs] at h
      exact Option.noConfusion h
    · simp only [insertChunksAux, hs] at h
      rcases List.mem_cons.mp hci with hci0 | hcir
      · subst hci0
        rcases hf : blobs.find? (fun b => b.blob_id = ci.chunk_blob_id)
          with _ | bd'
        · rw [hf] at hfind
          exact Option.noConfusion hfind
        · have hbd : bd' = bd := by
            rw [hf] at hfind
            exact (Option.some.injEq _ _ ▸ hfind)
          subst hbd
          simp only [insertStep, hf, Option.some.injEq] at hs
          subst hs
          refine insertChunksAux_ci_sizes_persist blobs rest
            ci.chunk_blob_id bd' hfind (index + 1) _ st' h ?_ ?_
          · simp
          · simp
      · exact ih (index + 1) st1 st' h ci hcir bd hfind

/-- C6 (amended): for the prefetch builder the invariant of the claim holds —
after any number of inserted chunks `meta_ci_uncompressed_size` equals the
chunk count times the fixed record size and `meta_ci_compressed_size` equals
it.  For the chunk-dictionary builder it does not: after each insertion both
fields are overwritten with the matching blob descriptor's stored
`blob_meta_ci_uncompressed_size` / `blob_meta_ci_compressed_size`. -/
theorem C6_meta_ci_sizes :
    (∀ pbIndex inputs,
        (runPrefetch pbIndex inputs).meta_ci_uncompressed_size
            = inputs.length * sizeOfBlobChunkInfoV1Ondisk ∧
          (runPrefetch pbIndex inputs).meta_ci_compressed_size
            = (runPrefetch pbIndex inputs).meta_ci_uncompressed_size) ∧
    (∀ chunks blobs st, insert_chunks chunks blobs = some st →
        ∀ ci ∈ chunks, ∀ bd,
          blobs.find? (fun b => b.blob_id = ci.chunk_blob_id) = some bd →
          (st.ctxs ci.chunk_blob_id).ci_uncompressed_size
              = bd.blob_meta_ci_uncompressed_size ∧
            (st.ctxs ci.chunk_blob_id).ci_compressed_size
              = bd.blob_meta_ci_compressed_size) := by
  constructor
  · intro pbIndex inputs
    have h := foldPrefetch_counts pbIndex inputs initPrefetchState
    rcases h with ⟨-, -, -, -, -, h6, h7⟩
    have e1 : initPrefetchState.meta_ci_uncompressed_size = 0 := rfl
    have e2 : initPrefetchState.meta_ci_compressed_size = 0 := rfl
    simp only [runPrefetch]
    omega
  · intro chunks blobs st h ci hci bd hfind
    exact insertChunksAux_ci_sizes blobs chunks 0 initInsertState st h
      ci hci bd hfind

/-- Blob descriptor for the C6 counterexample, whose stored meta-table sizes
7 and 9 are unequal and unrelated to the record size. -/
def c6Blob : ChunkdictBlobInfo :=
  { blob_id := "blob-a", blob_compressed_size := 0,
    blob_uncompressed_size := 0, blob_compressor := "zstd",
    blob_meta_ci_compressed_size := 9, blob_meta_ci_uncompressed_size := 7,
    blob_meta_ci_offset := 512 }

theorem C6_counterexample :
    ((insert_chunks [c1Chunk "blob-a" 5] [c6Blob]).map (fun st =>
        ((st.ctxs "blob-a").ci_uncompressed_size,
          (st.ctxs "blob-a").ci_compressed_size)))
      = some (7, 9) ∧
    (7 : Nat) ≠ 1 * sizeOfBlobChunkInfoV1Ondisk ∧ (9 : Nat) ≠ 7 := by
  decide

theorem C6_witness :
    ((insert_chunks [c1Chunk "blob-a" 5] [c9Blob "blob-a"]).map (fun st =>
        ((st.ctxs "blob-a").ci_uncompressed_size,
          (st.ctxs "blob-a").ci_compressed_size)))
      = some ((c9Blob "blob-a").blob_meta_ci_uncompressed_size,
          (c9Blob "blob-a").blob_meta_ci_compressed_size) := by
  rcases h : insert_chunks [c1Chunk "blob-a" 5] [c9Blob "blob-a"] with _ | st
  · have hsome : (insert_chunks [c1Chunk "blob-a" 5]
        [c9Blob "blob-a"]).isSome = true := by decide
    rw [h] at hsome
    simp at hsome
  · have hm := C6_meta_ci_sizes.2 [c1Chunk "blob-a" 5] [c9Blob "blob-a"]
      st h (c1Chunk "blob-a" 5) (by simp) (c9Blob "blob-a") rfl
    have hm1 : (st.ctxs "blob-a").ci_uncompressed_size
        = (c9Blob "blob-a").blob_meta_ci_uncompressed_size := hm.1
    have hm2 : (st.ctxs "blob-a").ci_compressed_size
        = (c9Blob "blob-a").blob_meta_ci_compressed_size := hm.2
    simp only [Option.map_some', Option.some.injEq]
    rw [hm1, hm2]

/-- The running uncompressed write position after the loop is the fold of
"add the chunk's uncompressed size, then round up to 4 KiB" over the chunk
sizes. -/
theorem foldPrefetch_offset (pbIndex : Nat)
    (inputs : List (List Nat × Chunk)) (st : PrefetchState) :
    (inputs.foldl (prefetchStep pbIndex) st).prefetch_blob_offset
      = (inputs.map (fun p => p.2.uncompressed_size)).foldl
          (fun acc u => align_to_4k (acc + u)) st.prefetch_blob_offset := by
  induction inputs generalizing st with
  | nil => rfl
  | cons p rest ih =>
    rw [List.foldl_cons, ih (prefetchStep pbIndex st p)]
    simp

/-- C4 (amended): the sealed prefetch-blob header has `meta_ci_offset` equal
to `0x200` plus the sum of the repacked chunks' uncompressed data sizes (not
the chunk-metadata table's size), `chunk_count` equal to the number of
chunks inserted, and both `compressed_size` and `uncompressed_size` equal to
the final 4 KiB-aligned uncompressed running offset (not the total
compressed bytes appended). -/
theorem C4_sealed_header (pbIndex : Nat)
    (inputs : List (List Nat × Chunk)) :
    (sealPrefetchBlob (runPrefetch pbIndex inputs)).meta_ci_offset
        = 0x200 + (inputs.map (fun p => p.2.uncompressed_size)).sum ∧
    (sealPrefetchBlob (runPrefetch pbIndex inputs)).chunk_count
        = inputs.length ∧
    (sealPrefetchBlob (runPrefetch pbIndex inputs)).compressed_size
        = (inputs.map (fun p => p.2.uncompressed_size)).foldl
            (fun acc u => align_to_4k (acc + u)) 0 ∧
    (sealPrefetchBlob (runPrefetch pbIndex inputs)).uncompressed_size
        = (inputs.map (fun p => p.2.uncompressed_size)).foldl
            (fun acc u => align_to_4k (acc + u)) 0 := by
  have hc := foldPrefetch_counts pbIndex inputs initPrefetchState
  rcases hc with ⟨h1, -, h3, -, -, -, -⟩
  have hoff := foldPrefetch_offset pbIndex inputs initPrefetchState
  have e0 : initPrefetchState.prefetch_blob_offset = 0 := rfl
  rw [e0] at hoff
  have ec : initPrefetchState.chunk_count = 0 := rfl
  have em : initPrefetchState.meta_uncompressed_size = 0 := rfl
  refine ⟨?_, ?_, ?_, ?_⟩ <;> simp only [sealPrefetchBlob, runPrefetch] <;>
    omega

/-- Single-chunk run for the C4 counterexample: 50 compressed bytes, 100
uncompressed bytes. -/
def c4Chunk : Chunk :=
  { blob_index := 0, index := 0, compressed_offset := 0,
    compressed_size := 50, uncompressed_offset := 0,
    uncompressed_size := 100 }

def c4Run : PrefetchState := runPrefetch 1 [(List.range 50, c4Chunk)]

/-- C4 counterexample: for a single chunk of compressed size 50 and
uncompressed size 100, the sealed header's `compressed_size` is 4096 — not
the 50 compressed bytes actually appended to the blob file (equivalently,
not the accumulator's final compressed running offset) — and its
`meta_ci_offset` is `0x200 + 100`, not `0x200` plus the metadata table's
uncompressed size of one record. -/
theorem C4_counterexample :
    (sealPrefetchBlob c4Run).compressed_size = 4096 ∧
    c4Run.current_compressed_offset = 50 ∧
    c4Run.blob_file.length = 50 ∧
    (sealPrefetchBlob c4Run).compressed_size
        ≠ c4Run.current_compressed_offset ∧
    (sealPrefetchBlob c4Run).compressed_size ≠ c4Run.blob_file.length ∧
    (sealPrefetchBlob c4Run).meta_ci_offset
        ≠ 0x200 + c4Run.meta_ci_uncompressed_size := by
  decide

/-- Two chunks for the C2 failing input, each of 4 compressed and 4
uncompressed bytes, stored back to back in an 8-byte source blob. -/
def c2Chunk (off : Nat) : Chunk :=
  { blob_index := 0, index := 0, compressed_offset := off,
    compressed_size := 4, uncompressed_offset := 0, uncompressed_size := 4 }

def c2Src : List Nat := [1, 2, 3, 4, 5, 6, 7, 8]

def c2Run : PrefetchState :=
  runPrefetch 1 [(c2Src, c2Chunk 0), (c2Src, c2Chunk 4)]

/-- C2 (code bug, evaluated at the failing input): the second chunk's bytes
are appended at file position 4 (right after the first chunk's 4 compressed
bytes), but its recorded compressed offset is 4096 (the 4 KiB-aligned
cumulative uncompressed size), so re-reading the new blob at the recorded
offset for the recorded size returns nothing instead of the original
bytes — the claimed round-trip fails for every chunk after the first. -/
theorem C2_roundtrip_fails :
    c2Run.blob_file = [1, 2, 3, 4, 5, 6, 7, 8] ∧
    (c2Run.chunks_out.map (fun c => c.compressed_offset)) = [0, 4096] ∧
    (c2Run.chunks_out.map (fun c => c.compressed_size)) = [4, 4] ∧
    ((c2Run.blob_file.drop 4096).take 4) = [] ∧
    ((c2Src.drop 4).take 4) = [5, 6, 7, 8] ∧
    ((c2Run.blob_file.drop 4096).take 4) ≠ ((c2Src.drop 4).take 4) := by
  decide

/-- A blob-table entry as touched by the commit-time identifier rewrite of
`Generator::generate_prefetch` (`BlobInfo` restricted to its identifier plus
a representative unrelated field, to show other fields are preserved). -/
structure BlobTableEntry where
  blob_id : String
  compressed_size : Nat
deriving DecidableEq, Repr

/-- Mirror of the commit-time rewrite: every entry whose identifier equals
the placeholder `"Prefetch-blob"` is cloned with the digest-derived
identifier; all other entries are kept as they are.  The source performs no
check on how many entries match. -/
def rewritePrefetchBlobId (entries : List BlobTableEntry)
    (newId : String) : List BlobTableEntry :=
  entries.map (fun b =>
    if b.blob_id = "Prefetch-blob" then { b with blob_id := newId } else b)

/-- C5 counterexample: with two placeholder entries in the blob table the
commit does not fail — it silently rewrites both entries. -/
theorem C5_counterexample :
    rewritePrefetchBlobId
        [{ blob_id := "Prefetch-blob", compressed_size := 1 },
          { blob_id := "Prefetch-blob", compressed_size := 2 }] "real-id"
      = [{ blob_id := "real-id", compressed_size := 1 },
          { blob_id := "real-id", compressed_size := 2 }] := by
  decide

/-- C5 (amended): the commit rewrite replaces the placeholder identifier on
every matching entry (zero, one, or many) and leaves all other entries
unchanged; it performs no consistency check on the number of matches and
never fails.  Afterwards no entry carries the placeholder identifier. -/
theorem C5_commit_rewrites_all (entries : List BlobTableEntry)
    (newId : String) (h : newId ≠ "Prefetch-blob") :
    (rewritePrefetchBlobId entries newId).length = entries.length ∧
    (∀ b ∈ rewritePrefetchBlobId entries newId,
        b.blob_id ≠ "Prefetch-blob") ∧
    (∀ b ∈ entries, b.blob_id ≠ "Prefetch-blob" →
        b ∈ rewritePrefetchBlobId entries newId) ∧
    (∀ b ∈ entries, b.blob_id = "Prefetch-blob" →
        { b with blob_id := newId } ∈ rewritePrefetchBlobId entries newId) := by
  refine ⟨by simp [rewritePrefetchBlobId], ?_, ?_, ?_⟩
  · intro b hb
    rcases List.mem_map.mp hb with ⟨a, ha, rfl⟩
    by_cases hid : a.blob_id = "Prefetch-blob"
    · rw [if_pos hid]
      exact h
    · rw [if_neg hid]
      exact hid
  · intro b hb hbid
    refine List.mem_map.mpr ⟨b, hb, ?_⟩
    simp [hbid]
  · intro b hb hbid
    refine List.mem_map.mpr ⟨b, hb, ?_⟩
    simp [hbid]

theorem C5_witness :
    (rewritePrefetchBlobId
        [{ blob_id := "Prefetch-blob", compressed_size := 3 },
          { blob_id := "other", compressed_size := 4 }] "xyz").length
      = ([{ blob_id := "Prefetch-blob", compressed_size := 3 },
          { blob_id := "other", compressed_size := 4 }] :
            List BlobTableEntry).length :=
  (C5_commit_rewrites_all
    [{ blob_id := "Prefetch-blob", compressed_size := 3 },
      { blob_id := "other", compressed_size := 4 }] "xyz" (by decide)).1

/-- Mirror of `BlobNodeReader` over a file modelled as a byte list.  The
constructor seeks the shared file handle to `start` and `read` advances it
by exactly the number of bytes returned, so the handle's offset always
equals `position`; one field models both cursors. -/
structure BlobNodeReader where
  blob : List Nat
  start : Nat
  endPos : Nat
  position : Nat
deriving DecidableEq, Repr

/-- Mirror of `BlobNodeReader::new`: the cursor starts at `start`. -/
def BlobNodeReader.new (blob : List Nat) (start endPos : Nat) :
    BlobNodeReader :=
  { blob := blob, start := start, endPos := endPos, position := start }

/-- One positioned read of up to `n` bytes at offset `pos` from a regular
file: returns the bytes present there. -/
def fileReadAt (file : List Nat) (pos n : Nat) : List Nat :=
  (file.drop pos).take n

/-- Mirror of `<BlobNodeReader as Read>::read`: returns the bytes read and
the updated reader.  The `position > end` guard returns zero bytes;
otherwise at most `min (buf.len()) (end - position)` bytes are read from the
underlying handle and the cursor advances by the number actually read. -/
def BlobNodeReader.read (r : BlobNodeReader) (bufLen : Nat) :
    List Nat × BlobNodeReader :=
  if r.endPos < r.position then ([], r)
  else
    let max_read := r.endPos - r.position
    let to_read := min bufLen max_read
    let bytes_read := fileReadAt r.blob r.position to_read
    (bytes_read, { r with position := r.position + bytes_read.length })

/-- C8: if the cursor has advanced past `end`, `read` returns zero bytes and
leaves the reader unchanged (never an error); otherwise, provided the
underlying file covers the range, it returns `min (buf.len()) (end -
cursor)` bytes; in every case the cursor advances by exactly the number of
bytes returned. -/
theorem C8_read_contract (r : BlobNodeReader) (bufLen : Nat) :
    (r.endPos < r.position → r.read bufLen = ([], r)) ∧
    (r.position ≤ r.endPos → r.endPos ≤ r.blob.length →
        (r.read bufLen).1.length = min bufLen (r.endPos - r.position)) ∧
    (r.read bufLen).2.position = r.position + (r.read bufLen).1.length := by
  refine ⟨?_, ?_, ?_⟩
  · intro hlt
    simp [BlobNodeReader.read, hlt]
  · intro hle hfile
    simp only [BlobNodeReader.read, if_neg (Nat.not_lt.mpr hle)]
    simp only [fileReadAt, List.length_take, List.length_drop]
    omega
  · by_cases hlt : r.endPos < r.position
    · simp [BlobNodeReader.read, hlt]
    · simp [BlobNodeReader.read, hlt]

/-- Concrete reader over a 5-byte file with range `[1, 4)`. -/
def c8Reader : BlobNodeReader := BlobNodeReader.new [1, 2, 3, 4, 5] 1 4

theorem C8_witness :
    (c8Reader.read 10).1.length
      = min 10 (c8Reader.endPos - c8Reader.position) :=
  (C8_read_contract c8Reader 10).2.1 (by decide) (by decide)

/-- A sequence of reads with the given buffer lengths, collecting the bytes
returned by each. -/
def readMany : BlobNodeReader → List Nat → List (List Nat) × BlobNodeReader
  | r, [] => ([], r)
  | r, n :: ns =>
    ((r.read n).1 :: (readMany (r.read n).2 ns).1,
      (readMany (r.read n).2 ns).2)

/-- A single read from a cursor within bounds keeps the cursor within
bounds, preserves the range, and advances by the number of bytes returned,
which is at most `end - cursor`. -/
theorem read_step_bounds (r : BlobNodeReader) (n : Nat)
    (h : r.position ≤ r.endPos) :
    (r.read n).2.position ≤ r.endPos ∧
    (r.read n).2.endPos = r.endPos ∧
    (r.read n).2.position = r.position + (r.read n).1.length ∧
    (r.read n).1.length ≤ r.endPos - r.position := by
  have hlt : ¬ r.endPos < r.position := Nat.not_lt.mpr h
  simp only [BlobNodeReader.read, if_neg hlt]
  simp only [fileReadAt, List.length_take, List.length_drop]
  refine ⟨by omega, by trivial, by trivial, by omega⟩

theorem readMany_bounds (ns : List Nat) :
    ∀ r : BlobNodeReader, r.position ≤ r.endPos →
      (readMany r ns).2.position ≤ r.endPos ∧
      (readMany r ns).2.endPos = r.endPos ∧
      (readMany r ns).2.position
        = r.position + ((readMany r ns).1.map List.length).sum := by
  induction ns with
  | nil =>
    intro r h
    simp only [readMany]
    exact ⟨h, by trivial, by simp⟩
  | cons n ns ih =>
    intro r h
    have hs := read_step_bounds r n h
    have hrec := ih (r.read n).2 (le_of_le_of_eq hs.1 hs.2.1.symm)
    simp only [readMany, List.map_cons, List.sum_cons]
    refine ⟨?_, ?_, ?_⟩
    · exact le_of_le_of_eq hrec.1 hs.2.1
    · rw [hrec.2.1, hs.2.1]
    · rw [hrec.2.2, hs.2.2.1]
      omega

/-- C10: for a reader constructed with `start ≤ end`, a read from a cursor
within bounds advances it by at most `end - cursor` (so the subtraction
`end - cursor` inside `read` never underflows), the cursor never exceeds
`end` after any sequence of reads, and the total number of bytes returned is
at most `end - start`. -/
theorem C10_cursor_never_exceeds_end :
    (∀ (r : BlobNodeReader) (n : Nat), r.position ≤ r.endPos →
        (r.read n).2.position ≤ r.endPos ∧
        (r.read n).1.length ≤ r.endPos - r.position) ∧
    (∀ (blob : List Nat) (s e : Nat), s ≤ e → ∀ ns : List Nat,
        (readMany (BlobNodeReader.new blob s e) ns).2.position ≤ e ∧
        ((readMany (BlobNodeReader.new blob s e) ns).1.map
            List.length).sum ≤ e - s) := by
  constructor
  · intro r n h
    have hs := read_step_bounds r n h
    exact ⟨hs.1, hs.2.2.2⟩
  · intro blob s e h ns
    have hm := readMany_bounds ns (BlobNodeReader.new blob s e) h
    have h1 : (readMany (BlobNodeReader.new blob s e) ns).2.position ≤ e :=
      hm.1
    have h3 : (readMany (BlobNodeReader.new blob s e) ns).2.position
        = s + ((readMany (BlobNodeReader.new blob s e) ns).1.map
            List.length).sum := hm.2.2
    exact ⟨h1, by omega⟩

theorem C10_witness :
    (readMany (BlobNodeReader.new [1, 2, 3, 4, 5] 0 5) [2, 2, 2]).2.position
      ≤ 5 :=
  (C10_cursor_never_exceeds_end.2 [1, 2, 3, 4, 5] 0 5 (by decide) [2, 2, 2]).1

end Chunkdict
